import Mathlib

/-!
Verification of the conversion routines of `ros2_ouster` (file
`include/ros2_ouster/conversions.hpp`), shallowly embedded in Lean 4.

Records of the point buffer are treated as opaque byte images (a type
parameter `α`): the relayout in the source is a `memcpy` of whole
`pt_size`-byte records at record-aligned offsets, so a record is never
split or reinterpreted, only moved.  Real-valued quantities (`double`,
`float` in the source) are modelled over `ℚ` with exact arithmetic; the
constant `M_PI` is passed as an explicit parameter `pi`.  Fallible
operations (out-of-bounds `std::vector` indexing, violated `assert`)
return `Option`.
-/

/-- Byte size of one `point_os::PointOS` record (`sizeof(point_os::PointOS)`
in `toMsg (PointCloud2)`): 48 bytes, per the source's own accounting
comment `data_size = 1536000 = 48 * 16 * 2000`. -/
def ptSize : Nat := 48

/-- The endianness probe of `conversions.hpp` writes the 2-byte pattern
`0x1` into memory and inspects the byte at the lowest address.  The host's
byte order is the parameter `big`: `storeBytes16 big v` is the in-memory
byte sequence (lowest address first) of the 16-bit value `v` on that
host. -/
def storeBytes16 (big : Bool) (v : Nat) : List Nat :=
  if big then [v / 256 % 256, v % 256] else [v % 256, v / 256 % 256]

/-- `IS_BIGENDIAN` of `conversions.hpp`: store `uint16_t dummy = 0x1`,
read the byte at the lowest address through `dummy_ptr[0]`, and return
`false` when that byte is `0x1`, `true` otherwise. -/
def IS_BIGENDIAN (big : Bool) : Bool :=
  if (storeBytes16 big 1).getD 0 0 = 1 then false else true

/-- Model of `pcl::PCLPointCloud2` after `moveFromPCL` and header
stamping, as populated by `toMsg (PointCloud2)`.  `data` is the output
buffer viewed as a list of whole records (the byte buffer is
`data.length * ptSize` bytes, each record slot holding one unmodified
record byte image). -/
structure PointCloud2 (α : Type) where
  height : Nat
  width : Nat
  point_step : Nat
  row_step : Nat
  is_dense : Bool
  is_bigendian : Bool
  data : List α
  frame_id : String
  stamp : Nat
  deriving Repr, DecidableEq

/-- The relayout loop of `toMsg (PointCloud2)`: for each column
`i < width` and ring `j < height` the record at input linear offset
`i * height + j` is copied to output linear offset `j * width + i`.
Since `(i, j) ↦ j * width + i` enumerates `[0, height * width)`
bijectively, the output record at offset `k` is the input record at
offset `(k % width) * height + k / width`. -/
def relayout {α : Type} [Inhabited α] (points : List α) (height width : Nat) :
    List α :=
  (List.range (height * width)).map
    (fun k => points.getD (k % width * height + k / width) default)

/-- `toMsg (PointCloud2)` of `conversions.hpp`.  `width` is set to the
caller-supplied `realwidth` (the recomputation
`data_size / (height * pt_size)` is commented out in the source),
`point_step` to `sizeof(PointOS)`, `row_step` to `pt_size * width`,
`is_dense` is copied from the input cloud and `is_bigendian` from the
process-wide probe (parameter `isBig`).  The output buffer holds
`height * realwidth` records; the copy loop runs only when that count is
nonzero and reads input offsets up to `height * realwidth - 1`, so the
call is an out-of-bounds read (`none`) when the input buffer is shorter
than `height * realwidth` records. -/
def toMsgPointCloud2 {α : Type} [Inhabited α] (points : List α)
    (height realwidth : Nat) (cloudIsDense : Bool) (isBig : Bool)
    (timestamp : Nat) (frame : String) : Option (PointCloud2 α) :=
  if height * realwidth = 0 then
    some { height := height, width := realwidth, point_step := ptSize,
           row_step := ptSize * realwidth, is_dense := cloudIsDense,
           is_bigendian := isBig, data := [], frame_id := frame,
           stamp := timestamp }
  else if height * realwidth ≤ points.length then
    some { height := height, width := realwidth, point_step := ptSize,
           row_step := ptSize * realwidth, is_dense := cloudIsDense,
           is_bigendian := isBig,
           data := relayout points height realwidth, frame_id := frame,
           stamp := timestamp }
  else
    none

/-- One `scan_os::ScanOS` sample.  Modelled from the spec: the header
`scan_os.hpp` is not in the sources; §3 of the spec describes a
ScanSample as one lidar return carrying a range/intensity pair, a source
ring id and a timestamp in nanoseconds, and `toMsg (LaserScan)` reads
exactly the fields `range`, `intensity`, `ring` and `t`. -/
structure ScanOS where
  range : ℚ
  intensity : ℚ
  ring : Nat
  t : Nat
  deriving Repr, DecidableEq

/-- Model of `sensor_msgs::msg::LaserScan` as populated by
`toMsg (LaserScan)`. -/
structure LaserScan where
  stamp : Nat
  frame_id : String
  angle_min : ℚ
  angle_max : ℚ
  range_min : ℚ
  range_max : ℚ
  scan_time : ℚ
  time_increment : ℚ
  angle_increment : ℚ
  ranges : List ℚ
  intensities : List ℚ
  deriving Repr, DecidableEq

/-- The filter loop of `toMsg (LaserScan)`: iterate the given samples in
order; whenever a sample's ring equals `ring_to_use`, push
`range * 1e-3` onto the ranges vector and the unmodified intensity onto
the intensities vector. -/
def scanLoop (samples : List ScanOS) (ring_to_use : Nat) :
    List ℚ × List ℚ :=
  samples.foldl
    (fun acc s =>
      if s.ring = ring_to_use then
        (acc.1 ++ [s.range * (1 / 1000)], acc.2 ++ [s.intensity])
      else acc)
    ([], [])

/-- `toMsg (LaserScan)` of `conversions.hpp`.  `pi` stands for the
`M_PI` constant and `num_lasers` for `mdata.num_lasers`.  The source
unconditionally reads `scans[0].t` (out of bounds on an empty vector)
and its filter loop reads `scans[i]` for every
`i < num_lasers * realwidth` (out of bounds when the vector is shorter),
so those cases return `none`.  Otherwise: the first sample's timestamp
scaled by `1e-9` gives `scan_time`, divided by `realwidth` gives
`time_increment`, `angle_increment = 2 * pi / realwidth`, and the loop
runs over the prefix of `num_lasers * realwidth` samples. -/
def toMsgLaserScan (scans : List ScanOS) (realwidth : Nat) (timestamp : Nat)
    (frame : String) (num_lasers : Nat) (ring_to_use : Nat) (pi : ℚ) :
    Option LaserScan :=
  match scans with
  | [] => none
  | s0 :: _ =>
    if num_lasers * realwidth ≤ scans.length then
      let dts : ℚ := (s0.t : ℚ) * (1 / 1000000000)
      let vecs := scanLoop (scans.take (num_lasers * realwidth)) ring_to_use
      some { stamp := timestamp, frame_id := frame,
             angle_min := 0, angle_max := 2 * pi,
             range_min := 25 / 1000, range_max := 20,
             scan_time := dts,
             time_increment := dts / (realwidth : ℚ),
             angle_increment := 2 * pi / (realwidth : ℚ),
             ranges := vecs.1,
             intensities := vecs.2 }
    else
      none

/-- Model of `geometry_msgs::msg::TransformStamped` as populated by
`toMsg (TransformStamped)`.  The rotation is kept as the `tf2` basis it
is built from — the row-major 3×3 block of the input matrix — matching
the spec's TransformDecomposition data model (translation + 3×3 rotation
basis + frame pair + timestamp). -/
structure TransformStamped where
  stamp : Nat
  frame_id : String
  child_frame_id : String
  translation : ℚ × ℚ × ℚ
  basis : List ℚ
  deriving Repr, DecidableEq

/-- `toMsg (TransformStamped)` of `conversions.hpp`: asserts
`mat.size() == 16` (a violated assertion is a contract fault, `none`),
sets the origin to `(mat[3] / 1e3, mat[7] / 1e3, mat[11] / 1e3)` and the
basis to the row-major block
`(mat[0], mat[1], mat[2], mat[4], mat[5], mat[6], mat[8], mat[9],
mat[10])`, then stamps the message with the given time, frame and child
frame. -/
def toMsgTransform (mat : List ℚ) (frame child_frame : String)
    (time : Nat) : Option TransformStamped :=
  if mat.length = 16 then
    some { stamp := time, frame_id := frame, child_frame_id := child_frame,
           translation := (mat.getD 3 0 / 1000, mat.getD 7 0 / 1000,
                           mat.getD 11 0 / 1000),
           basis := [mat.getD 0 0, mat.getD 1 0, mat.getD 2 0,
                     mat.getD 4 0, mat.getD 5 0, mat.getD 6 0,
                     mat.getD 8 0, mat.getD 9 0, mat.getD 10 0] }
  else
    none

/-- Model of `sensor_msgs::msg::Imu` as populated by `toMsg (Imu)`.
Covariance arrays are 9-element row-major 3×3 matrices. -/
structure Imu where
  stamp : Nat
  frame_id : String
  orientation : ℚ × ℚ × ℚ × ℚ
  linear_acceleration : ℚ × ℚ × ℚ
  angular_velocity : ℚ × ℚ × ℚ
  orientation_covariance : List ℚ
  angular_velocity_covariance : List ℚ
  linear_acceleration_covariance : List ℚ
  deriving Repr, DecidableEq

/-- The covariance loops of `toMsg (Imu)`: first every entry of the
array is set to `init` (`for i in [0, 9)`), then entries 0, 4 and 8 are
overwritten with `diag` (`for i in [0, 9) step 4`). -/
def imuCovariance (init diag : ℚ) : List ℚ :=
  (((List.replicate 9 init).set 0 diag).set 4 diag).set 8 diag

/-- `toMsg (Imu)` of `conversions.hpp`: the real computation from the
packet buffer is commented out; the function returns a fixed placeholder
with orientation `(0, 0, 0, 1)`, header stamp `rclcpp::Time(0)`, the
given frame id, zero linear acceleration and angular velocity, all nine
orientation covariance entries `-1`, angular velocity covariance with
`6e-4` at the diagonal entries 0, 4, 8 and `0` elsewhere, and linear
acceleration covariance with `0.01` at the diagonal and `0` elsewhere.
The packet buffer `buf` and the `override_ts` argument are unused. -/
def toMsgImu (buf : List Nat) (frame : String) (override_ts : Nat) : Imu :=
  { stamp := 0, frame_id := frame,
    orientation := (0, 0, 0, 1),
    linear_acceleration := (0, 0, 0),
    angular_velocity := (0, 0, 0),
    orientation_covariance := List.replicate 9 (-1 : ℚ),
    angular_velocity_covariance := imuCovariance 0 (6 / 10000),
    linear_acceleration_covariance := imuCovariance 0 (1 / 100) }

/-- Reading a mapped index-range list at an in-range position yields the
function applied to that position. -/
theorem getD_map_range {α : Type} (f : Nat → α) (N k : Nat) (hk : k < N)
    (d : α) : ((List.range N).map f).getD k d = f k := by
  rw [List.getD_eq_getElem?_getD, List.getElem?_map, List.getElem?_range hk]
  rfl

/-- The fold of the scan filter loop, run from an arbitrary pair of
accumulated vectors, appends the stable filter of the matching-ring
samples, the ranges scaled by `1e-3` and the intensities unchanged. -/
theorem scanLoop_foldl_eq (ring : Nat) (l : List ScanOS) :
    ∀ a b : List ℚ,
      l.foldl
        (fun acc s =>
          if s.ring = ring then
            (acc.1 ++ [s.range * (1 / 1000)], acc.2 ++ [s.intensity])
          else acc) (a, b)
      = (a ++ (l.filter (fun s => s.ring = ring)).map
            (fun s => s.range * (1 / 1000)),
         b ++ (l.filter (fun s => s.ring = ring)).map
            (fun s => s.intensity)) := by
  induction l with
  | nil => intro a b; simp
  | cons x xs ih =>
      intro a b
      rw [List.foldl_cons]
      by_cases h : x.ring = ring
      · rw [if_pos h, ih]
        simp [List.filter_cons, h]
      · rw [if_neg h, ih]
        simp [List.filter_cons, h]

/-- The scan filter loop produces exactly the stable filter of the
matching-ring samples: ranges scaled by `1e-3`, intensities carried
through unchanged, in input order. -/
theorem scanLoop_eq (l : List ScanOS) (ring : Nat) :
    scanLoop l ring
      = ((l.filter (fun s => s.ring = ring)).map
            (fun s => s.range * (1 / 1000)),
         (l.filter (fun s => s.ring = ring)).map (fun s => s.intensity)) := by
  rw [scanLoop, scanLoop_foldl_eq]
  simp

/-- C8: the endianness probe is deterministic — on one and the same host
byte order, any two evaluations return the same boolean — and on a
little-endian host, where the low-order byte of the 2-byte pattern `0x1`
sits at the lowest address, the probe reports little-endian, i.e. the
is-big-endian flag is `false`. -/
theorem endianness_probe_correct :
    (∀ big : Bool, IS_BIGENDIAN big = IS_BIGENDIAN big) ∧
    (storeBytes16 false 1).getD 0 0 = 1 ∧ IS_BIGENDIAN false = false :=
  ⟨fun _ => rfl, by decide, by decide⟩

/-- C9: for every input buffer, frame id and override timestamp, the IMU
conversion returns the fixed placeholder: orientation `(0, 0, 0, 1)`,
zero linear acceleration and angular velocity, linear-acceleration
covariance `0.01` on the 3×3 diagonal (entries 0, 4, 8) and `0`
elsewhere, angular-velocity covariance `6e-4` on the diagonal and `0`
elsewhere, and orientation covariance `-1` everywhere. -/
theorem imu_placeholder_correct (buf : List Nat) (frame : String)
    (override_ts : Nat) :
    (toMsgImu buf frame override_ts).orientation = (0, 0, 0, 1) ∧
    (toMsgImu buf frame override_ts).linear_acceleration = (0, 0, 0) ∧
    (toMsgImu buf frame override_ts).angular_velocity = (0, 0, 0) ∧
    (toMsgImu buf frame override_ts).linear_acceleration_covariance
      = [1/100, 0, 0, 0, 1/100, 0, 0, 0, 1/100] ∧
    (toMsgImu buf frame override_ts).angular_velocity_covariance
      = [6/10000, 0, 0, 0, 6/10000, 0, 0, 0, 6/10000] ∧
    (toMsgImu buf frame override_ts).orientation_covariance
      = [-1, -1, -1, -1, -1, -1, -1, -1, -1] := by
  refine ⟨rfl, rfl, rfl, ?_, ?_, ?_⟩ <;> rfl

/-- C10: the IMU conversion's output depends only on the frame argument —
two calls with the same frame but arbitrary, possibly different, buffer
contents and override timestamps return equal messages — and the header
timestamp is always time 0, the override timestamp being silently
ignored. -/
theorem imu_ignores_inputs (buf1 buf2 : List Nat) (frame : String)
    (ts1 ts2 : Nat) :
    toMsgImu buf1 frame ts1 = toMsgImu buf2 frame ts2 ∧
    (toMsgImu buf1 frame ts1).stamp = 0 :=
  ⟨rfl, rfl⟩

/-- C6: for every 16-element matrix, frame ids and timestamp, the
transform conversion returns translation
`(m[3]/1000, m[7]/1000, m[11]/1000)`, the rotation basis built from the
row-major 3×3 block, and the given frame, child frame and timestamp. -/
theorem transform_decomposition_correct (mat : List ℚ)
    (frame child_frame : String) (time : Nat) (hlen : mat.length = 16) :
    ∃ msg, toMsgTransform mat frame child_frame time = some msg ∧
      msg.translation = (mat.getD 3 0 / 1000, mat.getD 7 0 / 1000,
                         mat.getD 11 0 / 1000) ∧
      msg.basis = [mat.getD 0 0, mat.getD 1 0, mat.getD 2 0,
                   mat.getD 4 0, mat.getD 5 0, mat.getD 6 0,
                   mat.getD 8 0, mat.getD 9 0, mat.getD 10 0] ∧
      msg.frame_id = frame ∧ msg.child_frame_id = child_frame ∧
      msg.stamp = time := by
  rw [toMsgTransform, if_pos hlen]
  exact ⟨_, rfl, rfl, rfl, rfl, rfl, rfl⟩

/-- C6 witness: the identity 4×4 matrix yields zero translation and the
identity rotation basis. -/
theorem transform_decomposition_witness :
    ∃ msg, toMsgTransform [1, 0, 0, 0, 0, 1, 0, 0, 0, 0, 1, 0, 0, 0, 0, 1]
        "sensor" "base" 7 = some msg ∧
      msg.translation = (0, 0, 0) ∧
      msg.basis = [1, 0, 0, 0, 1, 0, 0, 0, 1] := by
  obtain ⟨msg, h1, h2, h3, -, -, -⟩ :=
    transform_decomposition_correct
      [1, 0, 0, 0, 0, 1, 0, 0, 0, 0, 1, 0, 0, 0, 0, 1] "sensor" "base" 7
      (by decide)
  exact ⟨msg, h1, by rw [h2]; norm_num, by rw [h3]; rfl⟩

/-- C2: at a degenerate shape the PointCloud2 conversion does return an
empty, valid buffer (`height = 0` or `realwidth = 0` give zero-length
data), but the LaserScan conversion does not: with `realwidth = 0` and
an empty sample vector — permitted, since `num_lasers * 0 = 0 ≤ 0` —
the source reads `scans[0].t` out of bounds (and divides `dts` and
`2 * M_PI` by zero), so the call faults instead of producing an empty,
valid ScanMessage. -/
theorem degenerate_shape_behaviour :
    (∃ msg, toMsgPointCloud2 ([] : List Nat) 0 5 true false 0 "os"
        = some msg ∧ msg.data = []) ∧
    (∃ msg, toMsgPointCloud2 ([] : List Nat) 4 0 true false 0 "os"
        = some msg ∧ msg.data = []) ∧
    toMsgLaserScan [] 0 0 "os" 16 0 (355/113) = none :=
  ⟨⟨_, rfl, rfl⟩, ⟨_, rfl, rfl⟩, rfl⟩


/-- C1: for every `height > 0`, `realwidth > 0` and input buffer of at
least `height * realwidth` records, the PointCloud2 conversion writes at
output record offset `j * realwidth + i` the exact unmodified record at
input linear offset `i * height + j`, for every `i < realwidth` and
`j < height`. -/
theorem pointcloud_transpose_correct (α : Type) [Inhabited α]
    (points : List α) (height realwidth : Nat) (dense big : Bool)
    (ts : Nat) (frame : String) (i j : Nat)
    (hh : 0 < height) (hw : 0 < realwidth)
    (hlen : height * realwidth ≤ points.length)
    (hi : i < realwidth) (hj : j < height) :
    ∃ msg, toMsgPointCloud2 points height realwidth dense big ts frame
        = some msg ∧
      msg.data.getD (j * realwidth + i) default
        = points.getD (i * height + j) default := by
  have hnz : ¬height * realwidth = 0 := Nat.mul_ne_zero (by omega) (by omega)
  rw [toMsgPointCloud2, if_neg hnz, if_pos hlen]
  refine ⟨_, rfl, ?_⟩
  have hk : j * realwidth + i < height * realwidth := by
    have h1 : j * realwidth + i < (j + 1) * realwidth := by
      rw [Nat.succ_mul]; omega
    have h2 : (j + 1) * realwidth ≤ height * realwidth :=
      Nat.mul_le_mul_right _ (by omega)
    omega
  rw [relayout, getD_map_range _ _ _ hk]
  have hmod : (j * realwidth + i) % realwidth = i := by
    rw [Nat.add_comm, Nat.add_mul_mod_self_right, Nat.mod_eq_of_lt hi]
  have hdiv : (j * realwidth + i) / realwidth = j := by
    rw [Nat.mul_comm j realwidth, Nat.mul_add_div hw,
      Nat.div_eq_of_lt hi, Nat.add_zero]
  rw [hmod, hdiv]

/-- C1 witness: a 2-ring, 3-column buffer; the record at input offset
`1 * 2 + 1 = 3` lands at output offset `1 * 3 + 1 = 4`. -/
theorem pointcloud_transpose_witness :
    ∃ msg, toMsgPointCloud2 [10, 11, 12, 13, 14, 15] 2 3 true false 0 "os"
        = some msg ∧
      msg.data.getD (1 * 3 + 1) default
        = [10, 11, 12, 13, 14, 15].getD (1 * 2 + 1) default :=
  pointcloud_transpose_correct Nat [10, 11, 12, 13, 14, 15] 2 3 true false
    0 "os" 1 1 (by decide) (by decide) (by decide) (by decide) (by decide)

/-- C5: for every input buffer and caller-supplied `realwidth`, the
PointCloud2 conversion sets the output width to `realwidth` exactly,
`point_step` to the fixed record byte size, `row_step` to
`point_step * realwidth`, the dense flag copied unchanged from the input
and the endianness flag from the process-wide probe, and the output
holds `height * realwidth` records (`point_step * height * realwidth`
bytes), dropping records at column indices at or beyond `realwidth`. -/
theorem pointcloud_fields_correct (α : Type) [Inhabited α]
    (points : List α) (height realwidth : Nat) (dense hostBig : Bool)
    (ts : Nat) (frame : String)
    (hlen : height * realwidth ≤ points.length) :
    ∃ msg, toMsgPointCloud2 points height realwidth dense
        (IS_BIGENDIAN hostBig) ts frame = some msg ∧
      msg.width = realwidth ∧ msg.height = height ∧
      msg.point_step = ptSize ∧ msg.row_step = ptSize * realwidth ∧
      msg.is_dense = dense ∧ msg.is_bigendian = IS_BIGENDIAN hostBig ∧
      msg.data.length = height * realwidth := by
  rw [toMsgPointCloud2]
  by_cases h0 : height * realwidth = 0
  · rw [if_pos h0]
    exact ⟨_, rfl, rfl, rfl, rfl, rfl, rfl, rfl, by simp [h0]⟩
  · rw [if_neg h0, if_pos hlen]
    refine ⟨_, rfl, rfl, rfl, rfl, rfl, rfl, rfl, ?_⟩
    simp [relayout]

/-- C5 witness: an over-allocated 12-record buffer with `height = 2` and
`realwidth = 3`: the width is 3 (not the naively recomputed
`12 / 2 = 6`) and only `2 * 3 = 6` records are kept. -/
theorem pointcloud_fields_witness :
    ∃ msg, toMsgPointCloud2 (List.range 12) 2 3 true
        (IS_BIGENDIAN false) 0 "os" = some msg ∧
      msg.width = 3 ∧ msg.height = 2 ∧
      msg.point_step = ptSize ∧ msg.row_step = ptSize * 3 ∧
      msg.is_dense = true ∧ msg.is_bigendian = IS_BIGENDIAN false ∧
      msg.data.length = 2 * 3 :=
  pointcloud_fields_correct Nat (List.range 12) 2 3 true false 0 "os"
    (by decide)

/-- C3 counterexample: on the spec's own example — samples
`(r=5,i=10,ring=0,t=100)`, `(r=3,i=20,ring=1,t=200)`,
`(r=7,i=30,ring=0,t=300)` with `num_lasers = 2`, `realwidth = 1`,
target ring 0 — the conversion scans only the prefix of
`2 * 1 = 2` samples, so the third sample (ring 0, range 7) is never
examined: the output is ranges `[0.005]` and intensities `[10]`, not
the claimed `[0.005, 0.007]` and `[10, 30]`. -/
theorem scan_filter_counterexample_example :
    ∃ msg, toMsgLaserScan
        [⟨5, 10, 0, 100⟩, ⟨3, 20, 1, 200⟩, ⟨7, 30, 0, 300⟩] 1 0 "os" 2 0
        (355/113) = some msg ∧
      msg.ranges = [5/1000] ∧ msg.intensities = [10] ∧
      msg.ranges ≠ [5/1000, 7/1000] ∧ msg.intensities ≠ [10, 30] := by
  refine ⟨_, rfl, ?_, ?_, ?_, ?_⟩
  · show (scanLoop _ _).1 = _
    norm_num [scanLoop]
  · show (scanLoop _ _).2 = _
    norm_num [scanLoop]
  · show (scanLoop _ _).1 ≠ _
    norm_num [scanLoop]
  · show (scanLoop _ _).2 ≠ _
    norm_num [scanLoop]

/-- C3 (amended): for every non-empty sample sequence of length at least
`num_lasers * realwidth` and every target ring, the output
ranges/intensities are exactly the stable, order-preserving filter of
the first `num_lasers * realwidth` samples whose ring equals the target
ring, ranges scaled by `1e-3` and intensities carried through unchanged;
the output length equals the count of matching samples in that prefix
and never exceeds the input sample count. -/
theorem scan_filter_correct (scans : List ScanOS) (realwidth ts : Nat)
    (frame : String) (num_lasers ring : Nat) (pi : ℚ)
    (hne : scans ≠ [])
    (hlen : num_lasers * realwidth ≤ scans.length) :
    ∃ msg, toMsgLaserScan scans realwidth ts frame num_lasers ring pi
        = some msg ∧
      msg.ranges = ((scans.take (num_lasers * realwidth)).filter
          (fun s => s.ring = ring)).map (fun s => s.range * (1 / 1000)) ∧
      msg.intensities = ((scans.take (num_lasers * realwidth)).filter
          (fun s => s.ring = ring)).map (fun s => s.intensity) ∧
      msg.ranges.length = ((scans.take (num_lasers * realwidth)).filter
          (fun s => s.ring = ring)).length ∧
      msg.intensities.length = msg.ranges.length ∧
      msg.ranges.length ≤ scans.length := by
  cases scans with
  | nil => exact absurd rfl hne
  | cons s0 rest =>
      simp only [toMsgLaserScan]
      rw [if_pos hlen]
      refine ⟨_, rfl, ?_, ?_, ?_, ?_, ?_⟩
      · show (scanLoop _ _).1 = _
        rw [scanLoop_eq]
      · show (scanLoop _ _).2 = _
        rw [scanLoop_eq]
      · show (scanLoop _ _).1.length = _
        rw [scanLoop_eq]
        exact List.length_map _ _
      · show (scanLoop _ _).2.length = (scanLoop _ _).1.length
        rw [scanLoop_eq]
        simp
      · show (scanLoop _ _).1.length ≤ _
        rw [scanLoop_eq, List.length_map]
        have h3 : ((s0 :: rest).take (num_lasers * realwidth)).length
            ≤ (s0 :: rest).length := by
          rw [List.length_take]; omega
        exact le_trans (List.length_filter_le _ _) h3

/-- C3 witness: the example sequence filtered for ring 1 with
`num_lasers = 2`, `realwidth = 1`: the second sample (range 3,
intensity 20) is the single match in the scanned prefix of length 2. -/
theorem scan_filter_witness :
    ∃ msg, toMsgLaserScan
        [⟨5, 10, 0, 100⟩, ⟨3, 20, 1, 200⟩, ⟨7, 30, 0, 300⟩] 1 0 "os" 2 1
        (355/113) = some msg ∧
      msg.ranges = [3/1000] ∧ msg.intensities = [20] := by
  obtain ⟨msg, h1, h2, h3, -, -, -⟩ :=
    scan_filter_correct
      [⟨5, 10, 0, 100⟩, ⟨3, 20, 1, 200⟩, ⟨7, 30, 0, 300⟩] 1 0 "os" 2 1
      (355/113) (by simp) (by simp)
  refine ⟨msg, h1, ?_, ?_⟩
  · rw [h2]; norm_num
  · rw [h3]; norm_num

/-- C4: for every non-empty sample sequence (long enough for the filter
loop) and `realwidth > 0`, the LaserScan conversion sets
`scan_time = samples[0].t * 1e-9`,
`time_increment = scan_time / realwidth`,
`angle_increment = 2 * M_PI / realwidth`, `angle_min = 0`,
`angle_max = 2 * M_PI`, `range_min = 0.025` and `range_max = 20.0`. -/
theorem scan_timing_correct (s0 : ScanOS) (rest : List ScanOS)
    (realwidth ts : Nat) (frame : String) (num_lasers ring : Nat) (pi : ℚ)
    (hw : 0 < realwidth)
    (hlen : num_lasers * realwidth ≤ (s0 :: rest).length) :
    ∃ msg, toMsgLaserScan (s0 :: rest) realwidth ts frame num_lasers ring
        pi = some msg ∧
      msg.scan_time = (s0.t : ℚ) * (1 / 1000000000) ∧
      msg.time_increment = msg.scan_time / (realwidth : ℚ) ∧
      msg.angle_increment = 2 * pi / (realwidth : ℚ) ∧
      msg.angle_min = 0 ∧ msg.angle_max = 2 * pi ∧
      msg.range_min = 25 / 1000 ∧ msg.range_max = 20 := by
  simp only [toMsgLaserScan]
  rw [if_pos hlen]
  exact ⟨_, rfl, rfl, rfl, rfl, rfl, rfl, rfl, rfl⟩

/-- C4 witness: `realwidth = 100` and first-sample `t = 50000000` ns give
`scan_time = 0.05`, `time_increment = 0.0005` and
`angle_increment = 2 * M_PI / 100`. -/
theorem scan_timing_witness :
    ∃ msg, toMsgLaserScan
        (⟨0, 0, 0, 50000000⟩ :: List.replicate 99 ⟨0, 0, 0, 50000000⟩)
        100 0 "os" 1 0 (355/113) = some msg ∧
      msg.scan_time = 1/20 ∧ msg.time_increment = 1/2000 ∧
      msg.angle_increment = 2 * (355/113) / 100 := by
  obtain ⟨msg, h1, h2, h3, h4, -, -, -, -⟩ :=
    scan_timing_correct ⟨0, 0, 0, 50000000⟩
      (List.replicate 99 ⟨0, 0, 0, 50000000⟩) 100 0 "os" 1 0 (355/113)
      (by norm_num) (by simp)
  refine ⟨msg, h1, ?_, ?_, ?_⟩
  · rw [h2]; norm_num
  · rw [h3, h2]; norm_num
  · rw [h4]; norm_num

/-- C7 counterexample: with `num_lasers = 0` the scanned prefix
`num_lasers * realwidth = 0` is empty, so the two singleton sample
sequences below agree on it, yet the conversion reads `scans[0].t`
outside that prefix: the outputs differ in `scan_time`
(`100e-9` versus `200e-9`). -/
theorem scan_prefix_counterexample :
    ([⟨0, 0, 0, 100⟩] : List ScanOS).take (0 * 3)
      = ([⟨0, 0, 0, 200⟩] : List ScanOS).take (0 * 3) ∧
    toMsgLaserScan [⟨0, 0, 0, 100⟩] 3 0 "os" 0 0 (355/113)
      ≠ toMsgLaserScan [⟨0, 0, 0, 200⟩] 3 0 "os" 0 0 (355/113) := by
  constructor
  · rfl
  · intro h
    simp only [toMsgLaserScan] at h
    rw [if_pos (by norm_num), if_pos (by norm_num)] at h
    have h2 := congrArg LaserScan.scan_time (Option.some.inj h)
    norm_num at h2

/-- C7 (amended): provided `num_lasers * realwidth ≥ 1` — so that the
first sample, whose timestamp the conversion reads unconditionally, lies
inside the scanned prefix — the LaserScan output depends only on the
first `num_lasers * realwidth` samples: two sample sequences agreeing on
that prefix (with identical other arguments) yield equal results. -/
theorem scan_prefix_dependence (s1 s2 : List ScanOS)
    (realwidth ts : Nat) (frame : String) (num_lasers ring : Nat) (pi : ℚ)
    (hpos : 1 ≤ num_lasers * realwidth)
    (htake : s1.take (num_lasers * realwidth)
      = s2.take (num_lasers * realwidth)) :
    toMsgLaserScan s1 realwidth ts frame num_lasers ring pi
      = toMsgLaserScan s2 realwidth ts frame num_lasers ring pi := by
  obtain ⟨N, hN⟩ : ∃ m, num_lasers * realwidth = m + 1 :=
    ⟨num_lasers * realwidth - 1, by omega⟩
  have hmin : min (num_lasers * realwidth) s1.length
      = min (num_lasers * realwidth) s2.length := by
    rw [← List.length_take, ← List.length_take, htake]
  cases s1 with
  | nil =>
      cases s2 with
      | nil => rfl
      | cons b t2 =>
          rw [hN] at htake
          simp at htake
  | cons a t1 =>
      cases s2 with
      | nil =>
          rw [hN] at htake
          simp at htake
      | cons b t2 =>
          have hab : a = b := by
            rw [hN] at htake
            simp only [List.take_succ_cons] at htake
            exact (List.cons.injEq _ _ _ _ ▸ htake).1
          subst hab
          simp only [toMsgLaserScan]
          by_cases hc : num_lasers * realwidth ≤ (a :: t1).length
          · have hc2 : num_lasers * realwidth ≤ (a :: t2).length := by
              simp only [List.length_cons] at hmin hc ⊢
              omega
            rw [if_pos hc, if_pos hc2, htake]
          · have hc2 : ¬num_lasers * realwidth ≤ (a :: t2).length := by
              simp only [List.length_cons] at hmin hc ⊢
              omega
            rw [if_neg hc, if_neg hc2]

/-- C7 witness: two 2-sample sequences sharing their first sample but
differing in the second; with `num_lasers * realwidth = 1` only the
first sample is scanned and the outputs coincide. -/
theorem scan_prefix_dependence_witness :
    toMsgLaserScan [⟨5, 10, 0, 100⟩, ⟨1, 2, 3, 4⟩] 1 0 "os" 1 0 (355/113)
      = toMsgLaserScan [⟨5, 10, 0, 100⟩, ⟨9, 9, 9, 9⟩] 1 0 "os" 1 0
        (355/113) :=
  scan_prefix_dependence [⟨5, 10, 0, 100⟩, ⟨1, 2, 3, 4⟩]
    [⟨5, 10, 0, 100⟩, ⟨9, 9, 9, 9⟩] 1 0 "os" 1 0 (355/113)
    (by norm_num) (by rfl)
